import Mathlib

/-!
Verification development for the tmuxrs session-orchestration engine.

The definitions shallowly embed the repository's Rust modules:
* `src/error.rs`   — the error enumeration `TmuxrsError`;
* `src/config.rs`  — the session descriptor model (`Config`, `WindowConfig`,
  `PaneConfig`, `WindowLayout`) and `PaneConfig::commands`;
* `src/tmux.rs`    — the multiplexer client: the pure argument-vector builders
  of the convenience operations and the outcome classification of `execute`
  and `session_exists_with_socket`;
* `src/session.rs` — `SessionManager::expand_path` and
  `SessionManager::start_session_with_options`, embedded as a trace monad over
  an oracle standing for the external tmux server.

Rust `HashMap`s that the code only iterates (single-entry YAML mappings) are
modelled as association lists; machine strings are Lean `String`s.
-/

namespace Tmuxrs

/-- The error enumeration of src/error.rs (`TmuxrsError`); each payload is the
message string carried by the variant. -/
inductive TmuxrsError where
  | ConfigNotFound (msg : String)
  | YamlError (msg : String)
  | TmuxError (msg : String)
  | IoError (msg : String)
deriving Repr, DecidableEq

/-- The `Display` rendering of `TmuxrsError`, from the `thiserror` attributes
in src/error.rs. -/
def TmuxrsError.display : TmuxrsError → String
  | .ConfigNotFound msg => "Configuration file not found: " ++ msg
  | .YamlError msg => "Failed to parse YAML: " ++ msg
  | .TmuxError msg => "tmux command failed: " ++ msg
  | .IoError msg => "IO error: " ++ msg

/-- The fragment of `serde_yaml::Value` that `PaneConfig::commands` inspects:
strings and sequences are examined, every other shape falls into the
catch-all arm. -/
inductive YamlValue where
  | null
  | boolVal (b : Bool)
  | number (n : Int)
  | str (s : String)
  | seq (items : List YamlValue)
  | mapping

/-- `PaneConfig` of src/config.rs: the untagged pane-shape union.  The Rust
`HashMap<String, serde_yaml::Value>` of the `Named` variant is modelled as an
association list whose head plays the role of `map.iter().next()`. -/
inductive PaneConfig where
  | Multiple (cmds : List String)
  | Named (map : List (String × YamlValue))
  | Simple (cmd : String)
  | Null

/-- Rust `s.trim().is_empty()`: the trimmed text is empty exactly when every
character of `s` is whitespace.  Stated over the character list so that it
evaluates by kernel reduction. -/
def trimIsEmpty (s : String) : Bool :=
  s.data.all Char.isWhitespace

/-- `PaneConfig::commands` of src/config.rs, clause for clause. -/
def PaneConfig.commands : PaneConfig → List String
  | .Simple cmd =>
    if trimIsEmpty cmd then [] else [cmd]
  | .Multiple cmds => cmds
  | .Named map =>
    match map.head? with
    | some (_, value) =>
      match value with
      | .str cmd => if trimIsEmpty cmd then [] else [cmd]
      | .seq items =>
        items.filterMap (fun v =>
          match v with
          | .str s => some s
          | _ => none)
      | _ => []
    | none => []
  | .Null => []

/-- `WindowLayout` of src/config.rs. -/
structure WindowLayout where
  layout : Option String
  panes : List PaneConfig

/-- `WindowConfig` of src/config.rs; the flattened `HashMap`s of the
`Complex` and `WithLayout` variants are modelled as association lists. -/
inductive WindowConfig where
  | Simple (command : String)
  | Complex (window : List (String × String))
  | WithLayout (window : List (String × WindowLayout))

/-- `Config` of src/config.rs. -/
structure Config where
  name : String
  root : Option String
  windows : List WindowConfig

/-! ### The multiplexer client's pure argument vectors (src/tmux.rs)

Each convenience operation assembles a tmux argument vector with the builder
`TmuxCommand::new().arg(..)...`; the functions below are those vectors. -/

/-- Arguments built by `session_exists_with_socket`. -/
def hasSessionArgs (sessionName : String) : List String :=
  ["has-session", "-t", sessionName]

/-- Arguments built by `new_session_with_socket`. -/
def newSessionArgs (sessionName workingDir : String) : List String :=
  ["new-session", "-d", "-s", sessionName, "-c", workingDir]

/-- Arguments built by `set_base_index_with_socket`. -/
def setBaseIndexArgs (sessionName : String) : List String :=
  ["set-option", "-t", sessionName, "base-index", "0"]

/-- Arguments built by `set_pane_base_index_with_socket`. -/
def setPaneBaseIndexArgs (sessionName : String) : List String :=
  ["set-option", "-t", sessionName, "pane-base-index", "0"]

/-- Arguments built by `new_window_with_socket`. -/
def newWindowArgs (sessionName windowName : String) (command : Option String)
    (workingDir : Option String) : List String :=
  ["new-window", "-t", sessionName, "-n", windowName]
    ++ (match workingDir with
        | some dir => ["-c", dir]
        | none => [])
    ++ (match command with
        | some cmdStr => [cmdStr]
        | none => [])

/-- Arguments built by `send_keys_with_socket`. -/
def sendKeysArgs (sessionName windowName keys : String) : List String :=
  ["send-keys", "-t", sessionName ++ ":" ++ windowName, keys, "Enter"]

/-- Arguments built by `send_keys_to_pane_with_socket`. -/
def sendKeysToPaneArgs (sessionName windowName : String) (paneIndex : Nat)
    (keys : String) : List String :=
  ["send-keys", "-t", sessionName ++ ":" ++ windowName ++ "." ++ toString paneIndex,
   keys, "Enter"]

/-- Arguments built by `split_window_horizontal_with_socket`: the command is
appended only when its trimmed text is nonempty. -/
def splitWindowHorizontalArgs (sessionName windowName command : String)
    (workingDir : Option String) : List String :=
  ["split-window", "-h", "-t",
   if windowName.isEmpty then sessionName else sessionName ++ ":" ++ windowName]
    ++ (match workingDir with
        | some dir => ["-c", dir]
        | none => [])
    ++ (if trimIsEmpty command then [] else [command])

/-! ### `execute` and the existence check (src/tmux.rs) -/

/-- The observable outcome of spawning the external tmux binary once:
either the spawn itself fails (`Command::output()` returns an IO error whose
display text is `msg`), or the process runs and exits with a success flag,
captured stdout and captured stderr. -/
inductive ProcOutcome where
  | spawnFailure (msg : String)
  | exited (success : Bool) (stdout stderr : String)

/-- `TmuxCommand::execute`: a spawn failure becomes a `TmuxError` with the
prefix `Failed to execute tmux: `; a nonzero exit becomes a `TmuxError`
carrying stderr verbatim; exit status 0 yields the captured stdout. -/
def execute (outcome : ProcOutcome) : Except TmuxrsError String :=
  match outcome with
  | .spawnFailure msg => .error (.TmuxError ("Failed to execute tmux: " ++ msg))
  | .exited success stdout stderr =>
    if success then .ok stdout else .error (.TmuxError stderr)

/-- `TmuxCommand::session_exists_with_socket`, given the outcome of its one
`has-session` invocation: `Ok` maps to `true`, a `TmuxError` maps to `false`,
any other error constructor would be propagated. -/
def sessionExistsResult (outcome : ProcOutcome) : Except TmuxrsError Bool :=
  match execute outcome with
  | .ok _ => .ok true
  | .error (.TmuxError _) => .ok false
  | .error e => .error e

/-! ### The orchestrator's trace monad (src/session.rs)

`SessionManager::start_session_with_options` drives a sequence of fallible
external tmux calls.  Each call is recorded in a trace; the external server's
answer to a call is given by an oracle that may consult the history of calls
issued so far.  `get_first_window_index_with_socket` and
`rename_window_with_socket` are invoked by src/session.rs but their bodies are
not under src/; they appear here as abstract control-plane calls, per the
spec's step 4 ("queries the server for the actual index of that first window
and renames it in place") and its `rename-window` command list. -/

/-- One external tmux invocation made by the orchestrator, with the argument
data the orchestrator passes to the corresponding convenience operation of
src/tmux.rs. -/
inductive TmuxCall where
  | hasSession (sessionName : String)
  | newSession (sessionName workingDir : String)
  | setBaseIndex (sessionName : String)
  | setPaneBaseIndex (sessionName : String)
  | getFirstWindowIndex (sessionName : String)
  | renameWindow (sessionName oldIndex newName : String)
  | newWindow (sessionName windowName : String) (command : Option String)
      (workingDir : Option String)
  | sendKeys (sessionName windowName keys : String)
  | sendKeysToPane (sessionName windowName : String) (paneIndex : Nat) (keys : String)
  | splitWindowHorizontal (sessionName windowName command : String)
      (workingDir : Option String)
  | selectLayout (sessionName windowName layout : String)
  | attachSession (sessionName : String)
deriving Repr, DecidableEq

/-- The external server: given the history of calls already issued and the
call now being made, it answers with the call's `Result`. -/
def Oracle : Type := List TmuxCall → TmuxCall → Except TmuxrsError String

/-- The orchestrator's effect monad: error short-circuiting plus an
append-only trace of the calls issued. -/
def TmuxM (α : Type) : Type :=
  Oracle → List TmuxCall → Except TmuxrsError α × List TmuxCall

instance : Monad TmuxM where
  pure a := fun _ t => (.ok a, t)
  bind m f := fun o t =>
    match m o t with
    | (.ok a, t') => f a o t'
    | (.error e, t') => (.error e, t')

/-- Issue a call, record it, and return its raw `Result` (the Rust pattern
`match Tmux-operation(..) { .. }`). -/
def tryCall (c : TmuxCall) : TmuxM (Except TmuxrsError String) :=
  fun o t => (.ok (o t c), t ++ [c])

/-- Issue a call, record it, and propagate its failure (the Rust `?`). -/
def call (c : TmuxCall) : TmuxM String :=
  fun o t => (o t c, t ++ [c])

/-- Return early with an error (the Rust `return Err(..)`). -/
def throwE {α : Type} (e : TmuxrsError) : TmuxM α :=
  fun _ t => (.error e, t)

/-- `TmuxCommand::session_exists_with_socket` as seen by the orchestrator:
the `has-session` call is issued, `Ok` means `true`, a `TmuxError` means
`false`, any other error is propagated. -/
def sessionExistsM (sessionName : String) : TmuxM Bool := do
  match ← tryCall (.hasSession sessionName) with
  | .ok _ => pure true
  | .error (.TmuxError _) => pure false
  | .error e => throwE e

/-- Rust `for x in xs` over fallible bodies whose results are discarded. -/
def forEachM {α : Type} (f : α → TmuxM String) : List α → TmuxM Unit
  | [] => pure ()
  | x :: xs => do
    let _ ← f x
    forEachM f xs

/-- Rust `for (i, x) in xs.iter().enumerate()` (starting at index `i`). -/
def forEachIdx {α : Type} (f : Nat → α → TmuxM Unit) : Nat → List α → TmuxM Unit
  | _, [] => pure ()
  | i, x :: xs => do
    f i x
    forEachIdx f (i + 1) xs

/-! ### `SessionManager::expand_path` (src/session.rs) -/

/-- The shell-expansion primitives of the external `shellexpand` crate, as the
orchestrator consumes them: `full` is `shellexpand::full` (combined tilde and
environment-variable expansion, fallible), `tilde` is `shellexpand::tilde`
(tilde-only expansion, infallible). -/
structure ShellEnv where
  full : String → Except String String
  tilde : String → String

/-- `SessionManager::expand_path`: try `shellexpand::full`; on any failure
fall back to `shellexpand::tilde`, which cannot fail. -/
def expand_path (shell : ShellEnv) (path : String) : Except TmuxrsError String :=
  match shell.full path with
  | .ok expanded => .ok expanded
  | .error _ => .ok (shell.tilde path)

/-- Modelled from the spec: `shellexpand::tilde` (an external crate, not under
src/) replaces a leading `~` path component with the home directory and leaves
all remaining text — including unresolved `$VAR` references — literal. -/
def tildeOnly (home path : String) : String :=
  match path.data with
  | ['~'] => home
  | '~' :: '/' :: rest => home ++ String.mk ('/' :: rest)
  | _ => path

/-! ### `SessionManager::start_session_with_options` (src/session.rs) -/

/-- The out-of-scope collaborators `start_session_with_options` consults
besides the tmux server: the shell expander and the config loader's result
for the target session (`Config::load` / `Config::parse_file`). -/
structure OrchestratorEnv where
  shell : ShellEnv
  loadConfig : Except TmuxrsError Config

/-- The window-creation step shared by all three `WindowConfig` arms of
src/session.rs: the entry at document position (0, 0) queries the server for
the initial window's actual index and renames that window, every other entry
is created fresh with a command-less `new-window`. -/
def createWindowEntry (sessionName windowName rootPath : String)
    (isFirst : Bool) : TmuxM Unit :=
  if isFirst then do
    let initialWindowIndex ← call (.getFirstWindowIndex sessionName)
    let _ ← call (.renameWindow sessionName initialWindowIndex windowName)
    pure ()
  else do
    let _ ← call (.newWindow sessionName windowName none (some rootPath))
    pure ()

/-- The `WindowConfig::Simple(command)` arm of the window loop. -/
def materializeSimple (sessionName rootPath : String) (index : Nat)
    (command : String) : TmuxM Unit := do
  let windowName := "window-" ++ toString index
  createWindowEntry sessionName windowName rootPath (index == 0)
  if !trimIsEmpty command then
    let _ ← call (.sendKeys sessionName windowName command)
    pure ()
  else
    pure ()

/-- One `(window_name, command)` entry of the `WindowConfig::Complex` arm. -/
def materializeComplexEntry (sessionName rootPath : String)
    (index windowIndex : Nat) (windowName command : String) : TmuxM Unit := do
  createWindowEntry sessionName windowName rootPath (index == 0 && windowIndex == 0)
  if !trimIsEmpty command then
    let _ ← call (.sendKeys sessionName windowName command)
    pure ()
  else
    pure ()

/-- The body of the `panes.iter().skip(1).enumerate()` loop of the
`WithLayout` arm: one command-less horizontal split, then the pane's commands
sent to pane index `paneIndex + 1`. -/
def materializePaneSplit (sessionName windowName rootPath : String)
    (paneIndex : Nat) (paneConfig : PaneConfig) : TmuxM Unit := do
  let _ ← call (.splitWindowHorizontal sessionName windowName "" (some rootPath))
  forEachM
    (fun command => call (.sendKeysToPane sessionName windowName (paneIndex + 1) command))
    paneConfig.commands

/-- The pane phase of the `WithLayout` arm: the first pane's commands go to
pane index 0 with precise pane targeting, then each remaining pane is split
off and populated. -/
def materializePanes (sessionName windowName rootPath : String)
    (firstPane : PaneConfig) (restPanes : List PaneConfig) : TmuxM Unit := do
  forEachM
    (fun command => call (.sendKeysToPane sessionName windowName 0 command))
    firstPane.commands
  forEachIdx
    (fun paneIndex paneConfig =>
      materializePaneSplit sessionName windowName rootPath paneIndex paneConfig)
    0 restPanes

/-- One `(window_name, layout_config)` entry of the `WithLayout` arm. -/
def materializeLayoutEntry (sessionName rootPath : String)
    (index windowIndex : Nat) (windowName : String)
    (layoutConfig : WindowLayout) : TmuxM Unit := do
  createWindowEntry sessionName windowName rootPath (index == 0 && windowIndex == 0)
  match layoutConfig.panes with
  | [] => throwE (.TmuxError "Window layout must have at least one pane")
  | firstPane :: restPanes => do
    materializePanes sessionName windowName rootPath firstPane restPanes
    match layoutConfig.layout with
    | some layout => do
      let _ ← call (.selectLayout sessionName windowName layout)
      pure ()
    | none => pure ()

/-- One iteration of the window loop of `start_session_with_options`,
dispatching on the `WindowConfig` shape. -/
def materializeWindow (sessionName rootPath : String) (index : Nat) :
    WindowConfig → TmuxM Unit
  | .Simple command => materializeSimple sessionName rootPath index command
  | .Complex window =>
    forEachIdx
      (fun windowIndex entry =>
        materializeComplexEntry sessionName rootPath index windowIndex
          entry.1 entry.2)
      0 window
  | .WithLayout window =>
    forEachIdx
      (fun windowIndex entry =>
        materializeLayoutEntry sessionName rootPath index windowIndex
          entry.1 entry.2)
      0 window

/-- `SessionManager::start_session_with_options`, with the session name
already resolved (the Rust `name`/`detect_session_name` step). -/
def startSessionWithOptions (env : OrchestratorEnv) (sessionName : String)
    (attach append : Bool) : TmuxM String := do
  let sessionPresent ← sessionExistsM sessionName
  if sessionPresent then
    if append then
      throwE (.TmuxError "Append functionality not yet implemented")
    else if attach then
      match ← tryCall (.attachSession sessionName) with
      | .ok _ => pure ("Attached to existing session '" ++ sessionName ++ "'")
      | .error err =>
        throwE (.TmuxError
          ("Failed to attach to session '" ++ sessionName ++ "': " ++ err.display))
    else
      pure ("Session '" ++ sessionName ++ "' already exists")
  else
    match env.loadConfig with
    | .error e => throwE e
    | .ok config => do
      let rootDir := config.root.getD "~"
      match expand_path env.shell rootDir with
      | .error e => throwE e
      | .ok rootPath => do
        let _ ← call (.newSession sessionName rootPath)
        let _ ← call (.setBaseIndex sessionName)
        let _ ← call (.setPaneBaseIndex sessionName)
        forEachIdx
          (fun index windowConfig =>
            materializeWindow sessionName rootPath index windowConfig)
          0 config.windows
        if attach then
          match ← tryCall (.attachSession sessionName) with
          | .ok _ =>
            pure ("Started and attached to session '" ++ sessionName ++ "'")
          | .error err =>
            throwE (.TmuxError
              ("Started session '" ++ sessionName ++ "' but failed to attach: "
                ++ err.display))
        else
          pure ("Started detached session '" ++ sessionName ++ "'")

/-! ### Call classification and oracles used in the statements -/

/-- Calls that mutate the multiplexer's session/window/pane state (the
claim's list: new-session, new-window, split-window, send-keys, set-option,
select-layout; rename-window is included as a mutation as well). -/
def isMutationCall : TmuxCall → Bool
  | .newSession _ _ => true
  | .setBaseIndex _ => true
  | .setPaneBaseIndex _ => true
  | .renameWindow _ _ _ => true
  | .newWindow _ _ _ _ => true
  | .sendKeys _ _ _ => true
  | .sendKeysToPane _ _ _ _ => true
  | .splitWindowHorizontal _ _ _ _ => true
  | .selectLayout _ _ _ => true
  | _ => false

/-- The two-phase creation discipline on one call: a `new-window` carries no
command and a `split-window` carries the empty command. -/
def twoPhaseOk : TmuxCall → Bool
  | .newWindow _ _ command _ => command.isNone
  | .splitWindowHorizontal _ _ command _ => command == ""
  | _ => true

/-- Command-delivery calls (`send-keys`, in either targeting form). -/
def isSendCall : TmuxCall → Bool
  | .sendKeys _ _ _ => true
  | .sendKeysToPane _ _ _ _ => true
  | _ => false

/-- A `new-window` call. -/
def isNewWindowCall : TmuxCall → Bool
  | .newWindow _ _ _ _ => true
  | _ => false

/-- The first-window handling calls: the index query and the in-place
rename. -/
def isFirstWindowCall : TmuxCall → Bool
  | .getFirstWindowIndex _ => true
  | .renameWindow _ _ _ => true
  | _ => false

/-- An oracle on which every external call succeeds, answering with `f`. -/
def okOracle (f : List TmuxCall → TmuxCall → String) : Oracle :=
  fun t c => .ok (f t c)

/-- An oracle for a server on which `sessionName` is absent: its
`has-session` check fails with a `TmuxError`, every other call succeeds with
the answer given by `f`. -/
def absentOracle (sessionName : String)
    (f : List TmuxCall → TmuxCall → String) : Oracle :=
  fun t c =>
    if c = TmuxCall.hasSession sessionName then
      .error (.TmuxError "no server running")
    else .ok (f t c)

/-- A `send-keys` call that targets pane index 0. -/
def isSendToPane0 : TmuxCall → Bool
  | .sendKeysToPane _ _ 0 _ => true
  | _ => false

/-- A concrete shell expander whose combined expansion succeeds with the
input unchanged (used for closed instantiations of the theorems). -/
def sampleShell : ShellEnv :=
  { full := fun path => .ok path, tilde := fun path => path }

/-- A concrete two-window descriptor (used for closed instantiations). -/
def sampleConfig : Config :=
  { name := "proj", root := some "/tmp/x",
    windows := [WindowConfig.Simple "echo hi", WindowConfig.Simple "ls"] }

/-- A concrete orchestrator environment (used for closed instantiations). -/
def sampleEnv : OrchestratorEnv :=
  { shell := sampleShell, loadConfig := .ok sampleConfig }

/-- A concrete oracle for a server on which `proj` is absent and every other
call succeeds answering `"0"` (used for closed instantiations). -/
def sampleOracle : Oracle := absentOracle "proj" (fun _ _ => "0")

/-- A concrete oracle on which every call succeeds (so every `has-session`
check reports the session as present; used for closed instantiations). -/
def presentOracle : Oracle := fun _ _ => .ok ""

/-- The trace is append-only for `m`. -/
def EmitsAppend {α : Type} (m : TmuxM α) : Prop :=
  ∀ o t, ∃ d, (m o t).2 = t ++ d

/-- `m` only appends to the trace, and every appended call satisfies `P`. -/
def EmitsWithin (P : TmuxCall → Bool) {α : Type} (m : TmuxM α) : Prop :=
  ∀ o t, ∃ d, (m o t).2 = t ++ d ∧ ∀ c ∈ d, P c = true

/-- The call sequence the spec prescribes for the panes after the first one
of a `Layout` window: for the pane at 1-based split position `k`, one
command-less horizontal split followed by its commands sent to pane index
`k`. -/
def splitSectionCalls (sessionName windowName rootPath : String) :
    Nat → List PaneConfig → List TmuxCall
  | _, [] => []
  | k, paneConfig :: rest =>
    TmuxCall.splitWindowHorizontal sessionName windowName "" (some rootPath) ::
      (paneConfig.commands.map
        (fun command => TmuxCall.sendKeysToPane sessionName windowName k command)
      ++ splitSectionCalls sessionName windowName rootPath (k + 1) rest)

/-! ### Unfolding lemmas for the trace monad -/

theorem TmuxM.bind_apply {α β : Type} (m : TmuxM α) (f : α → TmuxM β)
    (o : Oracle) (t : List TmuxCall) :
    (m >>= f) o t =
      match m o t with
      | (.ok a, t') => f a o t'
      | (.error e, t') => (.error e, t') := rfl

theorem TmuxM.pure_apply {α : Type} (a : α) (o : Oracle) (t : List TmuxCall) :
    (pure a : TmuxM α) o t = (.ok a, t) := rfl

theorem TmuxM.call_apply (c : TmuxCall) (o : Oracle) (t : List TmuxCall) :
    call c o t = (o t c, t ++ [c]) := rfl

theorem TmuxM.tryCall_apply (c : TmuxCall) (o : Oracle) (t : List TmuxCall) :
    tryCall c o t = (.ok (o t c), t ++ [c]) := rfl

theorem TmuxM.throwE_apply {α : Type} (e : TmuxrsError) (o : Oracle)
    (t : List TmuxCall) : (throwE e : TmuxM α) o t = (.error e, t) := rfl

/-! ### Trace monotonicity: every computation only appends to the trace -/

theorem emitsAppend_pure {α : Type} (a : α) : EmitsAppend (pure a : TmuxM α) :=
  fun _ t => ⟨[], (List.append_nil t).symm⟩

theorem emitsAppend_call (c : TmuxCall) : EmitsAppend (call c) :=
  fun _ _ => ⟨[c], rfl⟩

theorem emitsAppend_tryCall (c : TmuxCall) : EmitsAppend (tryCall c) :=
  fun _ _ => ⟨[c], rfl⟩

theorem emitsAppend_throwE {α : Type} (e : TmuxrsError) :
    EmitsAppend (throwE e : TmuxM α) :=
  fun _ t => ⟨[], (List.append_nil t).symm⟩

theorem emitsAppend_bind {α β : Type} {m : TmuxM α} {f : α → TmuxM β}
    (hm : EmitsAppend m) (hf : ∀ a, EmitsAppend (f a)) :
    EmitsAppend (m >>= f) := by
  intro o t
  rw [TmuxM.bind_apply]
  rcases hv : m o t with ⟨r, t'⟩
  obtain ⟨d₁, hd₁⟩ := hm o t
  rw [hv] at hd₁
  cases r with
  | ok a =>
    obtain ⟨d₂, hd₂⟩ := hf a o t'
    simp only at hd₁
    exact ⟨d₁ ++ d₂, by rw [hd₂, hd₁, List.append_assoc]⟩
  | error e => exact ⟨d₁, hd₁⟩

/-! ### EmitsWithin: the calls a computation appends all satisfy a predicate -/

theorem emitsWithin_pure {P : TmuxCall → Bool} {α : Type} (a : α) :
    EmitsWithin P (pure a : TmuxM α) :=
  fun _ t => ⟨[], (List.append_nil t).symm, by simp⟩

theorem emitsWithin_throwE {P : TmuxCall → Bool} {α : Type} (e : TmuxrsError) :
    EmitsWithin P (throwE e : TmuxM α) :=
  fun _ t => ⟨[], (List.append_nil t).symm, by simp⟩

theorem emitsWithin_call {P : TmuxCall → Bool} {c : TmuxCall}
    (hc : P c = true) : EmitsWithin P (call c) :=
  fun _ _ => ⟨[c], rfl, by simpa⟩

theorem emitsWithin_tryCall {P : TmuxCall → Bool} {c : TmuxCall}
    (hc : P c = true) : EmitsWithin P (tryCall c) :=
  fun _ _ => ⟨[c], rfl, by simpa⟩

theorem emitsWithin_bind {P : TmuxCall → Bool} {α β : Type}
    {m : TmuxM α} {f : α → TmuxM β}
    (hm : EmitsWithin P m) (hf : ∀ a, EmitsWithin P (f a)) :
    EmitsWithin P (m >>= f) := by
  intro o t
  rw [TmuxM.bind_apply]
  rcases hv : m o t with ⟨r, t'⟩
  obtain ⟨d₁, hd₁, hp₁⟩ := hm o t
  rw [hv] at hd₁
  simp only at hd₁
  cases r with
  | ok a =>
    obtain ⟨d₂, hd₂, hp₂⟩ := hf a o t'
    refine ⟨d₁ ++ d₂, by rw [hd₂, hd₁, List.append_assoc], ?_⟩
    intro c hc
    rcases List.mem_append.mp hc with h | h
    · exact hp₁ c h
    · exact hp₂ c h
  | error e => exact ⟨d₁, hd₁, hp₁⟩

theorem emitsWithin_ite {P : TmuxCall → Bool} {α : Type} (b : Prop)
    [Decidable b] {m m' : TmuxM α}
    (h₁ : EmitsWithin P m) (h₂ : EmitsWithin P m') :
    EmitsWithin P (if b then m else m') := by
  by_cases hb : b
  · simpa [hb] using h₁
  · simpa [hb] using h₂

theorem emitsWithin_forEachM {P : TmuxCall → Bool} {α : Type}
    {f : α → TmuxM String} :
    ∀ {l : List α}, (∀ x ∈ l, EmitsWithin P (f x)) →
      EmitsWithin P (forEachM f l)
  | [], _ => emitsWithin_pure ()
  | x :: xs, h => by
    rw [forEachM]
    exact emitsWithin_bind (h x (by simp))
      (fun _ => emitsWithin_forEachM (fun y hy => h y (by simp [hy])))

theorem emitsWithin_forEachIdx {P : TmuxCall → Bool} {α : Type}
    {f : Nat → α → TmuxM Unit} :
    ∀ {l : List α}, (∀ i x, x ∈ l → EmitsWithin P (f i x)) →
      ∀ j, EmitsWithin P (forEachIdx f j l)
  | [], _, _ => emitsWithin_pure ()
  | x :: xs, h, j => by
    rw [forEachIdx]
    exact emitsWithin_bind (h j x (by simp))
      (fun _ => emitsWithin_forEachIdx (fun i y hy => h i y (by simp [hy])) (j + 1))

theorem emitsWithin_sessionExistsM {P : TmuxCall → Bool} {sessionName : String}
    (h : P (.hasSession sessionName) = true) :
    EmitsWithin P (sessionExistsM sessionName) := by
  rw [sessionExistsM]
  refine emitsWithin_bind (emitsWithin_tryCall h) ?_
  intro a
  cases a with
  | ok v => exact emitsWithin_pure true
  | error e =>
    cases e with
    | TmuxError msg => exact emitsWithin_pure false
    | ConfigNotFound msg => exact emitsWithin_throwE _
    | YamlError msg => exact emitsWithin_throwE _
    | IoError msg => exact emitsWithin_throwE _

theorem emitsWithin_createWindowEntry {P : TmuxCall → Bool}
    {sessionName windowName rootPath : String} {isFirst : Bool}
    (hq : isFirst = true → P (.getFirstWindowIndex sessionName) = true)
    (hr : isFirst = true →
      ∀ v, P (.renameWindow sessionName v windowName) = true)
    (hn : isFirst = false →
      P (.newWindow sessionName windowName none (some rootPath)) = true) :
    EmitsWithin P (createWindowEntry sessionName windowName rootPath isFirst) := by
  cases isFirst with
  | true =>
    rw [createWindowEntry, if_pos rfl]
    exact emitsWithin_bind (emitsWithin_call (hq rfl))
      (fun v => emitsWithin_bind (emitsWithin_call (hr rfl v))
        (fun _ => emitsWithin_pure ()))
  | false =>
    rw [createWindowEntry, if_neg (by decide)]
    exact emitsWithin_bind (emitsWithin_call (hn rfl))
      (fun _ => emitsWithin_pure ())

theorem emitsWithin_materializeSimple {P : TmuxCall → Bool}
    {sessionName rootPath : String} {index : Nat} {command : String}
    (hq : index = 0 → P (.getFirstWindowIndex sessionName) = true)
    (hr : index = 0 →
      ∀ v, P (.renameWindow sessionName v ("window-" ++ toString index)) = true)
    (hn : P (.newWindow sessionName ("window-" ++ toString index) none
      (some rootPath)) = true)
    (hs : trimIsEmpty command = false →
      P (.sendKeys sessionName ("window-" ++ toString index) command) = true) :
    EmitsWithin P (materializeSimple sessionName rootPath index command) := by
  rw [materializeSimple]
  refine emitsWithin_bind
    (emitsWithin_createWindowEntry
      (fun h => hq (by simpa using h))
      (fun h => hr (by simpa using h))
      (fun _ => hn)) ?_
  intro _
  by_cases he : trimIsEmpty command
  · rw [if_neg (by simp [he])]
    exact emitsWithin_pure ()
  · rw [if_pos (by simp [he])]
    exact emitsWithin_bind
      (emitsWithin_call (hs (by simpa using he)))
      (fun _ => emitsWithin_pure ())

theorem emitsWithin_materializeComplexEntry {P : TmuxCall → Bool}
    {sessionName rootPath : String} {index windowIndex : Nat}
    {windowName command : String}
    (hq : index = 0 → windowIndex = 0 →
      P (.getFirstWindowIndex sessionName) = true)
    (hr : index = 0 → windowIndex = 0 →
      ∀ v, P (.renameWindow sessionName v windowName) = true)
    (hn : P (.newWindow sessionName windowName none (some rootPath)) = true)
    (hs : trimIsEmpty command = false →
      P (.sendKeys sessionName windowName command) = true) :
    EmitsWithin P
      (materializeComplexEntry sessionName rootPath index windowIndex
        windowName command) := by
  rw [materializeComplexEntry]
  refine emitsWithin_bind
    (emitsWithin_createWindowEntry
      (fun h => hq (by simp_all) (by simp_all))
      (fun h => hr (by simp_all) (by simp_all))
      (fun _ => hn)) ?_
  intro _
  by_cases he : trimIsEmpty command
  · rw [if_neg (by simp [he])]
    exact emitsWithin_pure ()
  · rw [if_pos (by simp [he])]
    exact emitsWithin_bind
      (emitsWithin_call (hs (by simpa using he)))
      (fun _ => emitsWithin_pure ())

theorem emitsWithin_materializePaneSplit {P : TmuxCall → Bool}
    {sessionName windowName rootPath : String} {paneIndex : Nat}
    {paneConfig : PaneConfig}
    (hsp : P (.splitWindowHorizontal sessionName windowName "" (some rootPath))
      = true)
    (hs : ∀ command ∈ paneConfig.commands,
      P (.sendKeysToPane sessionName windowName (paneIndex + 1) command) = true) :
    EmitsWithin P
      (materializePaneSplit sessionName windowName rootPath paneIndex paneConfig) := by
  rw [materializePaneSplit]
  exact emitsWithin_bind (emitsWithin_call hsp)
    (fun _ => emitsWithin_forEachM (fun cmd hc => emitsWithin_call (hs cmd hc)))

theorem emitsWithin_materializePanes {P : TmuxCall → Bool}
    {sessionName windowName rootPath : String} {firstPane : PaneConfig}
    {restPanes : List PaneConfig}
    (hs0 : ∀ command ∈ firstPane.commands,
      P (.sendKeysToPane sessionName windowName 0 command) = true)
    (hsp : restPanes ≠ [] →
      P (.splitWindowHorizontal sessionName windowName "" (some rootPath)) = true)
    (hs : ∀ k, ∀ paneConfig ∈ restPanes, ∀ command ∈ paneConfig.commands,
      P (.sendKeysToPane sessionName windowName (k + 1) command) = true) :
    EmitsWithin P
      (materializePanes sessionName windowName rootPath firstPane restPanes) := by
  rw [materializePanes]
  refine emitsWithin_bind
    (emitsWithin_forEachM (fun cmd hc => emitsWithin_call (hs0 cmd hc))) ?_
  intro _
  refine emitsWithin_forEachIdx ?_ 0
  intro i pc hpc
  exact emitsWithin_materializePaneSplit
    (hsp (by intro hnil; rw [hnil] at hpc; simp at hpc))
    (fun cmd hc => hs i pc hpc cmd hc)

theorem emitsWithin_materializeLayoutEntry {P : TmuxCall → Bool}
    {sessionName rootPath : String} {index windowIndex : Nat}
    {windowName : String} {layoutConfig : WindowLayout}
    (hq : index = 0 → windowIndex = 0 →
      P (.getFirstWindowIndex sessionName) = true)
    (hr : index = 0 → windowIndex = 0 →
      ∀ v, P (.renameWindow sessionName v windowName) = true)
    (hn : P (.newWindow sessionName windowName none (some rootPath)) = true)
    (hsp : P (.splitWindowHorizontal sessionName windowName "" (some rootPath))
      = true)
    (hs : ∀ k command, command ∈ (layoutConfig.panes.map PaneConfig.commands).flatten →
      P (.sendKeysToPane sessionName windowName k command) = true)
    (hl : ∀ layout, layoutConfig.layout = some layout →
      P (.selectLayout sessionName windowName layout) = true) :
    EmitsWithin P
      (materializeLayoutEntry sessionName rootPath index windowIndex windowName
        layoutConfig) := by
  rw [materializeLayoutEntry]
  refine emitsWithin_bind
    (emitsWithin_createWindowEntry
      (fun h => hq (by simp_all) (by simp_all))
      (fun h => hr (by simp_all) (by simp_all))
      (fun _ => hn)) ?_
  intro _
  rcases hpanes : layoutConfig.panes with _ | ⟨firstPane, restPanes⟩
  · exact emitsWithin_throwE _
  · refine emitsWithin_bind
      (emitsWithin_materializePanes
        (fun cmd hc =>
          hs 0 cmd (by
            rw [hpanes]
            exact List.mem_flatten.mpr
              ⟨firstPane.commands, by simp, hc⟩))
        (fun _ => hsp)
        (fun k pc hpc cmd hc =>
          hs (k + 1) cmd (by
            rw [hpanes]
            exact List.mem_flatten.mpr
              ⟨pc.commands, by simp; exact Or.inr ⟨pc, hpc, rfl⟩, hc⟩)))
      ?_
    intro _
    rcases hl' : layoutConfig.layout with _ | layout
    · exact emitsWithin_pure ()
    · exact emitsWithin_bind (emitsWithin_call (hl layout hl'))
        (fun _ => emitsWithin_pure ())

theorem emitsWithin_materializeWindow {P : TmuxCall → Bool}
    {sessionName rootPath : String} {index : Nat} {windowConfig : WindowConfig}
    (hq : index = 0 → P (.getFirstWindowIndex sessionName) = true)
    (hr : index = 0 → ∀ v windowName,
      P (.renameWindow sessionName v windowName) = true)
    (hn : ∀ windowName,
      P (.newWindow sessionName windowName none (some rootPath)) = true)
    (hsend : ∀ windowName keys, P (.sendKeys sessionName windowName keys) = true)
    (hsendp : ∀ windowName k keys,
      P (.sendKeysToPane sessionName windowName k keys) = true)
    (hsp : ∀ windowName,
      P (.splitWindowHorizontal sessionName windowName "" (some rootPath)) = true)
    (hl : ∀ windowName layout,
      P (.selectLayout sessionName windowName layout) = true) :
    EmitsWithin P (materializeWindow sessionName rootPath index windowConfig) := by
  cases windowConfig with
  | Simple command =>
    rw [materializeWindow]
    exact emitsWithin_materializeSimple
      (fun h => hq h) (fun h v => hr h v _) (hn _) (fun _ => hsend _ _)
  | Complex window =>
    rw [materializeWindow]
    refine emitsWithin_forEachIdx ?_ 0
    intro i entry _
    exact emitsWithin_materializeComplexEntry
      (fun h _ => hq h) (fun h _ v => hr h v _) (hn _) (fun _ => hsend _ _)
  | WithLayout window =>
    rw [materializeWindow]
    refine emitsWithin_forEachIdx ?_ 0
    intro i entry _
    exact emitsWithin_materializeLayoutEntry
      (fun h _ => hq h) (fun h _ v => hr h v _) (hn _) (hsp _)
      (fun k cmd _ => hsendp _ k cmd) (fun layout _ => hl _ layout)

theorem emitsWithin_startSessionWithOptions {P : TmuxCall → Bool}
    {env : OrchestratorEnv} {sessionName : String} {attach append : Bool}
    (hhs : P (.hasSession sessionName) = true)
    (hatt : P (.attachSession sessionName) = true)
    (hns : ∀ workingDir, P (.newSession sessionName workingDir) = true)
    (hbi : P (.setBaseIndex sessionName) = true)
    (hpbi : P (.setPaneBaseIndex sessionName) = true)
    (hq : P (.getFirstWindowIndex sessionName) = true)
    (hr : ∀ v windowName, P (.renameWindow sessionName v windowName) = true)
    (hn : ∀ windowName workingDir,
      P (.newWindow sessionName windowName none (some workingDir)) = true)
    (hsend : ∀ windowName keys, P (.sendKeys sessionName windowName keys) = true)
    (hsendp : ∀ windowName k keys,
      P (.sendKeysToPane sessionName windowName k keys) = true)
    (hsp : ∀ windowName workingDir,
      P (.splitWindowHorizontal sessionName windowName "" (some workingDir)) = true)
    (hl : ∀ windowName layout,
      P (.selectLayout sessionName windowName layout) = true) :
    EmitsWithin P (startSessionWithOptions env sessionName attach append) := by
  rw [startSessionWithOptions]
  refine emitsWithin_bind (emitsWithin_sessionExistsM hhs) ?_
  intro present
  cases present with
  | true =>
    rw [if_pos rfl]
    by_cases ha : append = true
    · rw [if_pos (by simp [ha])]
      exact emitsWithin_throwE _
    · rw [if_neg (by simp_all)]
      by_cases hb : attach = true
      · rw [if_pos (by simp [hb])]
        refine emitsWithin_bind (emitsWithin_tryCall hatt) ?_
        intro a
        cases a with
        | ok v => exact emitsWithin_pure _
        | error e => exact emitsWithin_throwE _
      · rw [if_neg (by simp_all)]
        exact emitsWithin_pure _
  | false =>
    rw [if_neg (by simp)]
    rcases hlc : env.loadConfig with e | config
    · simp only [hlc]
      exact emitsWithin_throwE _
    · simp only [hlc]
      rcases hep : expand_path env.shell (config.root.getD "~") with e | rootPath
      · simp only [hep]
        exact emitsWithin_throwE _
      · simp only [hep]
        refine emitsWithin_bind (emitsWithin_call (hns rootPath)) ?_
        intro _
        refine emitsWithin_bind (emitsWithin_call hbi) ?_
        intro _
        refine emitsWithin_bind (emitsWithin_call hpbi) ?_
        intro _
        refine emitsWithin_bind
          (emitsWithin_forEachIdx
            (fun i wc _ =>
              emitsWithin_materializeWindow
                (fun _ => hq) (fun _ v wn => hr v wn) (fun wn => hn wn rootPath)
                hsend hsendp (fun wn => hsp wn rootPath) hl)
            0) ?_
        intro _
        cases attach with
        | true =>
          rw [if_pos rfl]
          refine emitsWithin_bind (emitsWithin_tryCall hatt) ?_
          intro a
          cases a with
          | ok v => exact emitsWithin_pure _
          | error e => exact emitsWithin_throwE _
        | false =>
          rw [if_neg (by decide)]
          exact emitsWithin_pure _

/-! ### Exact traces on a fully successful server -/

theorem okOracle_apply (f : List TmuxCall → TmuxCall → String)
    (t : List TmuxCall) (c : TmuxCall) : okOracle f t c = .ok (f t c) := rfl

theorem forEachM_call_ok (f : List TmuxCall → TmuxCall → String)
    (g : String → TmuxCall) :
    ∀ (l : List String) (t : List TmuxCall),
      forEachM (fun command => call (g command)) l (okOracle f) t =
        (.ok (), t ++ l.map g)
  | [], t => by simp [forEachM, TmuxM.pure_apply]
  | x :: xs, t => by
    simp only [forEachM, TmuxM.bind_apply, TmuxM.call_apply, okOracle_apply,
      forEachM_call_ok f g xs]
    simp

theorem createWindowEntry_ok_first (f : List TmuxCall → TmuxCall → String)
    (sessionName windowName rootPath : String) (t : List TmuxCall) :
    createWindowEntry sessionName windowName rootPath true (okOracle f) t =
      (.ok (), t ++
        [TmuxCall.getFirstWindowIndex sessionName,
         TmuxCall.renameWindow sessionName
           (f t (TmuxCall.getFirstWindowIndex sessionName)) windowName]) := by
  rw [createWindowEntry, if_pos rfl, TmuxM.bind_apply, TmuxM.call_apply,
    okOracle_apply]
  simp [TmuxM.bind_apply, TmuxM.call_apply, okOracle_apply, TmuxM.pure_apply]

theorem createWindowEntry_ok_fresh (f : List TmuxCall → TmuxCall → String)
    (sessionName windowName rootPath : String) (t : List TmuxCall) :
    createWindowEntry sessionName windowName rootPath false (okOracle f) t =
      (.ok (), t ++
        [TmuxCall.newWindow sessionName windowName none (some rootPath)]) := by
  rw [createWindowEntry, if_neg (by decide), TmuxM.bind_apply, TmuxM.call_apply,
    okOracle_apply]
  simp [TmuxM.pure_apply]

theorem materializeSimple_ok (f : List TmuxCall → TmuxCall → String)
    (sessionName rootPath : String) (index : Nat) (command : String)
    (t : List TmuxCall) :
    materializeSimple sessionName rootPath index command (okOracle f) t =
      (.ok (),
        (t ++
          (if index == 0 then
            [TmuxCall.getFirstWindowIndex sessionName,
             TmuxCall.renameWindow sessionName
               (f t (TmuxCall.getFirstWindowIndex sessionName))
               ("window-" ++ toString index)]
          else
            [TmuxCall.newWindow sessionName ("window-" ++ toString index) none
              (some rootPath)]))
          ++ (if trimIsEmpty command then []
              else [TmuxCall.sendKeys sessionName ("window-" ++ toString index)
                command])) := by
  rw [materializeSimple]
  by_cases hi : (index == 0) = true
  · rw [hi]
    simp only [TmuxM.bind_apply, createWindowEntry_ok_first, if_true]
    by_cases he : trimIsEmpty command
    · simp [he, TmuxM.pure_apply]
    · simp [he, TmuxM.bind_apply, TmuxM.call_apply, okOracle_apply,
        TmuxM.pure_apply]
  · have hi' : (index == 0) = false := by simpa using hi
    rw [hi']
    simp only [TmuxM.bind_apply, createWindowEntry_ok_fresh, Bool.false_eq_true,
      if_false]
    by_cases he : trimIsEmpty command
    · simp [he, TmuxM.pure_apply]
    · simp [he, TmuxM.bind_apply, TmuxM.call_apply, okOracle_apply,
        TmuxM.pure_apply]

theorem materializePaneSplit_ok (f : List TmuxCall → TmuxCall → String)
    (sessionName windowName rootPath : String) (paneIndex : Nat)
    (paneConfig : PaneConfig) (t : List TmuxCall) :
    materializePaneSplit sessionName windowName rootPath paneIndex paneConfig
      (okOracle f) t =
      (.ok (),
        t ++ TmuxCall.splitWindowHorizontal sessionName windowName ""
              (some rootPath) ::
          paneConfig.commands.map
            (fun command =>
              TmuxCall.sendKeysToPane sessionName windowName (paneIndex + 1)
                command)) := by
  simp only [materializePaneSplit, TmuxM.bind_apply, TmuxM.call_apply,
    okOracle_apply, forEachM_call_ok]
  simp

theorem forEachIdx_paneSplit_ok (f : List TmuxCall → TmuxCall → String)
    (sessionName windowName rootPath : String) :
    ∀ (rest : List PaneConfig) (j : Nat) (t : List TmuxCall),
      forEachIdx
        (fun paneIndex paneConfig =>
          materializePaneSplit sessionName windowName rootPath paneIndex
            paneConfig)
        j rest (okOracle f) t =
        (.ok (), t ++ splitSectionCalls sessionName windowName rootPath (j + 1) rest)
  | [], j, t => by simp [forEachIdx, splitSectionCalls, TmuxM.pure_apply]
  | pc :: rest, j, t => by
    simp only [forEachIdx, TmuxM.bind_apply, materializePaneSplit_ok,
      forEachIdx_paneSplit_ok f sessionName windowName rootPath rest]
    simp [splitSectionCalls]

theorem materializePanes_ok (f : List TmuxCall → TmuxCall → String)
    (sessionName windowName rootPath : String) (firstPane : PaneConfig)
    (restPanes : List PaneConfig) (t : List TmuxCall) :
    materializePanes sessionName windowName rootPath firstPane restPanes
      (okOracle f) t =
      (.ok (),
        t ++ firstPane.commands.map
            (fun command =>
              TmuxCall.sendKeysToPane sessionName windowName 0 command)
          ++ splitSectionCalls sessionName windowName rootPath 1 restPanes) := by
  simp only [materializePanes, TmuxM.bind_apply, forEachM_call_ok,
    forEachIdx_paneSplit_ok]

theorem sessionExistsM_present (o : Oracle) (sessionName : String)
    (t : List TmuxCall) (v : String)
    (h : o t (.hasSession sessionName) = .ok v) :
    sessionExistsM sessionName o t =
      (.ok true, t ++ [TmuxCall.hasSession sessionName]) := by
  simp only [sessionExistsM, TmuxM.bind_apply, TmuxM.tryCall_apply, h,
    TmuxM.pure_apply]

theorem sessionExistsM_absent (o : Oracle) (sessionName : String)
    (t : List TmuxCall) (msg : String)
    (h : o t (.hasSession sessionName) = .error (.TmuxError msg)) :
    sessionExistsM sessionName o t =
      (.ok false, t ++ [TmuxCall.hasSession sessionName]) := by
  simp only [sessionExistsM, TmuxM.bind_apply, TmuxM.tryCall_apply, h,
    TmuxM.pure_apply]

theorem sessionExistsM_bind_absent {β : Type} (o : Oracle) (sessionName : String)
    (t : List TmuxCall) (msg : String) (k : Bool → TmuxM β)
    (h : o t (.hasSession sessionName) = .error (.TmuxError msg)) :
    (sessionExistsM sessionName >>= k) o t =
      k false o (t ++ [TmuxCall.hasSession sessionName]) := by
  rw [TmuxM.bind_apply, sessionExistsM_absent o sessionName t msg h]

theorem materializeComplexEntry_ok (f : List TmuxCall → TmuxCall → String)
    (sessionName rootPath : String) (index windowIndex : Nat)
    (windowName command : String) (t : List TmuxCall) :
    materializeComplexEntry sessionName rootPath index windowIndex windowName
      command (okOracle f) t =
      (.ok (),
        (t ++
          (if index == 0 && windowIndex == 0 then
            [TmuxCall.getFirstWindowIndex sessionName,
             TmuxCall.renameWindow sessionName
               (f t (TmuxCall.getFirstWindowIndex sessionName)) windowName]
          else
            [TmuxCall.newWindow sessionName windowName none (some rootPath)]))
          ++ (if trimIsEmpty command then []
              else [TmuxCall.sendKeys sessionName windowName command])) := by
  rw [materializeComplexEntry]
  by_cases hi : (index == 0 && windowIndex == 0) = true
  · rw [hi]
    simp only [TmuxM.bind_apply, createWindowEntry_ok_first, if_true]
    by_cases he : trimIsEmpty command
    · simp [he, TmuxM.pure_apply]
    · simp [he, TmuxM.bind_apply, TmuxM.call_apply, okOracle_apply,
        TmuxM.pure_apply]
  · have hi' : (index == 0 && windowIndex == 0) = false := by simpa using hi
    rw [hi']
    simp only [TmuxM.bind_apply, createWindowEntry_ok_fresh, Bool.false_eq_true,
      if_false]
    by_cases he : trimIsEmpty command
    · simp [he, TmuxM.pure_apply]
    · simp [he, TmuxM.bind_apply, TmuxM.call_apply, okOracle_apply,
        TmuxM.pure_apply]

theorem emitsAppend_of_emitsWithin {P : TmuxCall → Bool} {α : Type}
    {m : TmuxM α} (h : EmitsWithin P m) : EmitsAppend m := by
  intro o t
  obtain ⟨d, hd, _⟩ := h o t
  exact ⟨d, hd⟩

theorem exists_rest_of_bind_call {β : Type} (c : TmuxCall) (f : String → TmuxM β)
    (o : Oracle) (t : List TmuxCall) (hf : ∀ a, EmitsAppend (f a)) :
    ∃ rest, ((call c >>= f) o t).2 = (t ++ [c]) ++ rest := by
  rw [TmuxM.bind_apply, TmuxM.call_apply]
  rcases hv : o t c with e | v
  · exact ⟨[], by simp⟩
  · obtain ⟨d, hd⟩ := hf v o (t ++ [c])
    exact ⟨d, hd⟩

/-! ### The claims -/

/-- Claim C5, counterexample: a single-valued (string-valued) `Named` pane
whose string is empty yields zero commands, not exactly one, so the length
table of the claim fails on `Named {console: ""}`. -/
theorem claim5_counterexample :
    (PaneConfig.Named [("console", YamlValue.str "")]).commands.length = 0 ∧
    ¬ (PaneConfig.Named [("console", YamlValue.str "")]).commands.length = 1 := by
  constructor
  · rfl
  · decide

/-- Claim C5, amended: `commands()` is total by construction and its length
is 0 for `Null` and for `Simple` with an empty or whitespace-only string;
exactly 1 for `Simple` with a non-whitespace-only string and for a
string-valued `Named` whose string is not empty or whitespace-only (0 when
that string is empty or whitespace-only); `N` for `Multiple` with `N`
entries and for a list-valued `Named` with `N` string entries. -/
theorem claim5_commands_length :
    PaneConfig.Null.commands.length = 0
    ∧ (∀ cmd : String, trimIsEmpty cmd = true →
        (PaneConfig.Simple cmd).commands.length = 0)
    ∧ (∀ cmd : String, trimIsEmpty cmd = false →
        (PaneConfig.Simple cmd).commands.length = 1)
    ∧ (∀ k cmd : String, trimIsEmpty cmd = false →
        (PaneConfig.Named [(k, YamlValue.str cmd)]).commands.length = 1)
    ∧ (∀ k cmd : String, trimIsEmpty cmd = true →
        (PaneConfig.Named [(k, YamlValue.str cmd)]).commands.length = 0)
    ∧ (∀ cmds : List String, (PaneConfig.Multiple cmds).commands.length = cmds.length)
    ∧ (∀ (k : String) (strs : List String),
        (PaneConfig.Named [(k, YamlValue.seq (strs.map YamlValue.str))]).commands.length
          = strs.length) := by
  refine ⟨rfl, ?_, ?_, ?_, ?_, ?_, ?_⟩
  · intro cmd h
    simp [PaneConfig.commands, h]
  · intro cmd h
    simp [PaneConfig.commands, h]
  · intro k cmd h
    simp [PaneConfig.commands, h]
  · intro k cmd h
    simp [PaneConfig.commands, h]
  · intro cmds
    rfl
  · intro k strs
    simp only [PaneConfig.commands, List.head?_cons]
    induction strs with
    | nil => rfl
    | cons s rest ih => simp [ih]

/-- Claim C5, witness: concrete instances of the amended length table. -/
theorem claim5_commands_length_witness :
    (PaneConfig.Named [("editor", YamlValue.str "vim")]).commands.length = 1
    ∧ (PaneConfig.Simple "  ").commands.length = 0 :=
  ⟨claim5_commands_length.2.2.2.1 "editor" "vim" (by decide),
   claim5_commands_length.2.1 "  " (by decide)⟩

/-- Claim C6, counterexample: an empty string inside a `Multiple` pane is
passed through verbatim, so `commands()` can contain an empty command
string. -/
theorem claim6_counterexample :
    (PaneConfig.Multiple [""]).commands = [""]
    ∧ "" ∈ (PaneConfig.Multiple [""]).commands
    ∧ trimIsEmpty "" = true := by
  refine ⟨rfl, by decide, by decide⟩

/-- Claim C6, amended: the empty/whitespace-only filtering of `commands()`
applies only to the `Simple` variant and to a string-valued `Named` variant;
the entries of `Multiple` and the string entries of a list-valued `Named`
are passed through verbatim, empty or not. -/
theorem claim6_commands_filtering :
    (∀ cmd c : String, c ∈ (PaneConfig.Simple cmd).commands →
      trimIsEmpty c = false)
    ∧ (∀ k cmd c : String,
        c ∈ (PaneConfig.Named [(k, YamlValue.str cmd)]).commands →
        trimIsEmpty c = false)
    ∧ (∀ cmds : List String, (PaneConfig.Multiple cmds).commands = cmds)
    ∧ (∀ (k : String) (items : List YamlValue),
        (PaneConfig.Named [(k, YamlValue.seq items)]).commands =
          items.filterMap (fun v =>
            match v with
            | .str s => some s
            | _ => none)) := by
  refine ⟨?_, ?_, fun _ => rfl, fun _ _ => rfl⟩
  · intro cmd c hc
    by_cases h : trimIsEmpty cmd
    · simp [PaneConfig.commands, h] at hc
    · simp only [PaneConfig.commands, if_neg h, List.mem_singleton] at hc
      subst hc
      simpa using h
  · intro k cmd c hc
    by_cases h : trimIsEmpty cmd
    · simp [PaneConfig.commands, h] at hc
    · simp only [PaneConfig.commands, List.head?_cons, if_neg h,
        List.mem_singleton] at hc
      subst hc
      simpa using h

/-- Claim C6, witness: a concrete nonempty `Simple` command passes the
filter. -/
theorem claim6_commands_filtering_witness : trimIsEmpty "vim" = false :=
  claim6_commands_filtering.1 "vim" "vim" (by decide)

/-- Claim C7: the existence check returns `Ok(true)` exactly when the
underlying `has-session` execution succeeds, and maps every failure of
`execute` — a nonzero exit as well as a failure to spawn the binary — to
`Ok(false)`; under `execute`'s behaviour it always returns `Ok`. -/
theorem claim7_session_exists_collapses_failure :
    ∀ outcome : ProcOutcome,
      (∃ b, sessionExistsResult outcome = .ok b)
      ∧ (sessionExistsResult outcome = .ok true ↔ ∃ out, execute outcome = .ok out)
      ∧ (∀ msg, sessionExistsResult (.spawnFailure msg) = .ok false)
      ∧ (∀ stdout stderr, sessionExistsResult (.exited false stdout stderr) = .ok false) := by
  intro outcome
  refine ⟨?_, ?_, fun msg => rfl, fun stdout stderr => rfl⟩
  · rcases outcome with msg | ⟨success, stdout, stderr⟩
    · exact ⟨false, rfl⟩
    · cases success
      · exact ⟨false, rfl⟩
      · exact ⟨true, rfl⟩
  · rcases outcome with msg | ⟨success, stdout, stderr⟩
    · simp [sessionExistsResult, execute]
    · cases success
      · simp [sessionExistsResult, execute]
      · simp [sessionExistsResult, execute]

/-- Claim C9: `expand_path` never fails — it returns `Ok` for every input,
taking the combined expansion's answer when that succeeds and falling back
to tilde-only expansion otherwise; tilde-only expansion leaves a path
without a leading tilde fully literal (so unresolved `$VAR` text is
preserved), as on the concrete `~/$PROJ`. -/
theorem claim9_expand_path_never_fails :
    (∀ (shell : ShellEnv) (path : String), ∃ s, expand_path shell path = .ok s)
    ∧ (∀ (shell : ShellEnv) (path r : String), shell.full path = .ok r →
        expand_path shell path = .ok r)
    ∧ (∀ (shell : ShellEnv) (path e : String), shell.full path = .error e →
        expand_path shell path = .ok (shell.tilde path))
    ∧ (∀ home path : String, (∀ rest, path.data ≠ '~' :: rest) →
        tildeOnly home path = path)
    ∧ tildeOnly "/home/user" "~/$PROJ" = "/home/user/$PROJ" := by
  refine ⟨?_, ?_, ?_, ?_, by decide⟩
  · intro shell path
    rcases h : shell.full path with e | r
    · exact ⟨shell.tilde path, by rw [expand_path, h]⟩
    · exact ⟨r, by rw [expand_path, h]⟩
  · intro shell path r h
    rw [expand_path, h]
  · intro shell path e h
    rw [expand_path, h]
  · intro home path h
    unfold tildeOnly
    split
    · rename_i hd
      exact absurd hd (h [])
    · rename_i rest hd
      exact absurd hd (h ('/' :: rest))
    · rfl

/-- Claim C9, witness: with a combined expander that always fails and an
identity tilde expander, a `$VAR` path comes back unchanged inside `Ok`. -/
theorem claim9_expand_path_witness :
    expand_path { full := fun _ => .error "lookup", tilde := fun p => p }
      "$UNDEF/x" = .ok "$UNDEF/x" :=
  claim9_expand_path_never_fails.2.2.1
    { full := fun _ => .error "lookup", tilde := fun p => p } "$UNDEF/x"
    "lookup" rfl

/-- Claim C1: against a `Present` session (the `has-session` probe succeeds),
`append = true` fails fast with the explicit not-implemented error, and
`append = false`, `attach = false` returns the informational already-exists
result; in both cases the whole trace is the lone `has-session` probe, so
zero mutation commands are issued. -/
theorem claim1_present_session_no_mutation :
    ∀ (env : OrchestratorEnv) (sessionName : String) (attach append : Bool)
      (o : Oracle) (v : String),
      o [] (.hasSession sessionName) = .ok v →
      (append = true →
        startSessionWithOptions env sessionName attach append o [] =
          (.error (.TmuxError "Append functionality not yet implemented"),
           [TmuxCall.hasSession sessionName]))
      ∧ (append = false → attach = false →
        startSessionWithOptions env sessionName attach append o [] =
          (.ok ("Session '" ++ sessionName ++ "' already exists"),
           [TmuxCall.hasSession sessionName]))
      ∧ (append = true ∨ attach = false →
        ((startSessionWithOptions env sessionName attach append o []).2).filter
          isMutationCall = []) := by
  intro env sessionName attach append o v h
  have hpres := sessionExistsM_present o sessionName [] v h
  refine ⟨?_, ?_, ?_⟩
  · intro ha
    subst ha
    simp [startSessionWithOptions, TmuxM.bind_apply, hpres, TmuxM.throwE_apply]
  · intro ha hb
    subst ha
    subst hb
    simp [startSessionWithOptions, TmuxM.bind_apply, hpres, TmuxM.pure_apply]
  · intro hor
    rcases hor with ha | hb
    · subst ha
      simp [startSessionWithOptions, TmuxM.bind_apply, hpres, TmuxM.throwE_apply,
        isMutationCall]
    · subst hb
      cases append
      · simp [startSessionWithOptions, TmuxM.bind_apply, hpres, TmuxM.pure_apply,
          isMutationCall]
      · simp [startSessionWithOptions, TmuxM.bind_apply, hpres, TmuxM.throwE_apply,
          isMutationCall]

/-- Claim C1, witness: a concrete present-session run with
`attach = append = false` returns the already-exists result and issues only
the `has-session` probe. -/
theorem claim1_present_session_no_mutation_witness :
    startSessionWithOptions sampleEnv "proj" false false presentOracle [] =
      (.ok ("Session '" ++ "proj" ++ "' already exists"),
       [TmuxCall.hasSession "proj"]) :=
  (claim1_present_session_no_mutation sampleEnv "proj" false false presentOracle
    "" rfl).2.1 rfl rfl

/-- Claim C2: command dispatch is two-phase in every run — every `new-window`
call carries no command and every `split-window` call carries the empty
command; command text travels in separate `send-keys` calls whose argument
vectors end with the virtual `Enter` keystroke; and a window or pane whose
resolved command list is empty receives no `send-keys` call at all. -/
theorem claim2_two_phase_command_dispatch :
    (∀ sessionName windowName keys : String,
      (sendKeysArgs sessionName windowName keys).getLast? = some "Enter")
    ∧ (∀ (sessionName windowName : String) (paneIndex : Nat) (keys : String),
        (sendKeysToPaneArgs sessionName windowName paneIndex keys).getLast? =
          some "Enter")
    ∧ (∀ (env : OrchestratorEnv) (sessionName : String) (attach append : Bool)
        (o : Oracle) (c : TmuxCall),
        c ∈ ((startSessionWithOptions env sessionName attach append) o []).2 →
        twoPhaseOk c = true)
    ∧ (∀ (sessionName rootPath : String) (index : Nat) (command : String),
        trimIsEmpty command = true →
        ∀ (o : Oracle) (t : List TmuxCall) (c : TmuxCall),
          c ∈ (materializeSimple sessionName rootPath index command o t).2 →
          c ∈ t ∨ isSendCall c = false)
    ∧ (∀ (sessionName rootPath : String) (index windowIndex : Nat)
        (windowName command : String),
        trimIsEmpty command = true →
        ∀ (o : Oracle) (t : List TmuxCall) (c : TmuxCall),
          c ∈ (materializeComplexEntry sessionName rootPath index windowIndex
            windowName command o t).2 →
          c ∈ t ∨ isSendCall c = false)
    ∧ (∀ (sessionName windowName rootPath : String) (paneIndex : Nat)
        (paneConfig : PaneConfig),
        paneConfig.commands = [] →
        ∀ (o : Oracle) (t : List TmuxCall),
          (materializePaneSplit sessionName windowName rootPath paneIndex
            paneConfig o t).2 =
            t ++ [TmuxCall.splitWindowHorizontal sessionName windowName ""
              (some rootPath)])
    ∧ (∀ (sessionName windowName rootPath : String) (firstPane : PaneConfig)
        (restPanes : List PaneConfig),
        firstPane.commands = [] →
        ∀ (o : Oracle) (t : List TmuxCall) (c : TmuxCall),
          c ∈ (materializePanes sessionName windowName rootPath firstPane
            restPanes o t).2 →
          c ∈ t ∨ isSendToPane0 c = false) := by
  refine ⟨fun _ _ _ => rfl, fun _ _ _ _ => rfl, ?_, ?_, ?_, ?_, ?_⟩
  · intro env sessionName attach append o c hc
    obtain ⟨d, hd, hp⟩ :=
      @emitsWithin_startSessionWithOptions twoPhaseOk env sessionName attach append
        rfl rfl (fun _ => rfl) rfl rfl rfl (fun _ _ => rfl) (fun _ _ => rfl)
        (fun _ _ => rfl) (fun _ _ _ => rfl) (fun _ _ => rfl) (fun _ _ => rfl) o []
    rw [hd] at hc
    exact hp c (by simpa using hc)
  · intro sessionName rootPath index command hcmd o t c hc
    obtain ⟨d, hd, hp⟩ :=
      @emitsWithin_materializeSimple (fun c => !isSendCall c) sessionName rootPath
        index command (fun _ => rfl) (fun _ _ => rfl) rfl
        (fun hfalse => by rw [hcmd] at hfalse; cases hfalse) o t
    rw [hd] at hc
    rcases List.mem_append.mp hc with hin | hin
    · exact Or.inl hin
    · exact Or.inr (by simpa using hp c hin)
  · intro sessionName rootPath index windowIndex windowName command hcmd o t c hc
    obtain ⟨d, hd, hp⟩ :=
      @emitsWithin_materializeComplexEntry (fun c => !isSendCall c) sessionName
        rootPath index windowIndex windowName command (fun _ _ => rfl)
        (fun _ _ _ => rfl) rfl
        (fun hfalse => by rw [hcmd] at hfalse; cases hfalse) o t
    rw [hd] at hc
    rcases List.mem_append.mp hc with hin | hin
    · exact Or.inl hin
    · exact Or.inr (by simpa using hp c hin)
  · intro sessionName windowName rootPath paneIndex paneConfig hpc o t
    simp only [materializePaneSplit, hpc, forEachM, TmuxM.bind_apply,
      TmuxM.call_apply]
    rcases h : o t (TmuxCall.splitWindowHorizontal sessionName windowName ""
      (some rootPath)) with e | v <;> simp [h, TmuxM.pure_apply]
  · intro sessionName windowName rootPath firstPane restPanes hpc o t c hc
    obtain ⟨d, hd, hp⟩ :=
      @emitsWithin_materializePanes (fun c => !isSendToPane0 c) sessionName
        windowName rootPath firstPane restPanes
        (fun cmd hcm => absurd hcm (by rw [hpc]; simp))
        (fun _ => rfl) (fun _ _ _ _ _ => rfl) o t
    rw [hd] at hc
    rcases List.mem_append.mp hc with hin | hin
    · exact Or.inl hin
    · exact Or.inr (by simpa using hp c hin)

/-- Claim C2, witness: in a concrete fresh two-window run, the `new-window`
call issued for the second window is in the trace and carries no command. -/
theorem claim2_two_phase_command_dispatch_witness :
    twoPhaseOk (TmuxCall.newWindow "proj" "window-1" none (some "/tmp/x")) = true :=
  claim2_two_phase_command_dispatch.2.2.1 sampleEnv "proj" false false
    sampleOracle (TmuxCall.newWindow "proj" "window-1" none (some "/tmp/x"))
    (by decide)

/-- Claim C3: on a fully successful server, materializing the panes of a
`Layout` window sends the first pane's commands to pane index 0 with precise
pane targeting, and for each subsequent pane at 1-based position `k` issues
exactly one command-less horizontal split followed by that pane's commands
sent to pane index `k` — regardless of which panes have commands; the
pane-targeted argument vector uses the `session:window.index` form. -/
theorem claim3_layout_pane_indexing :
    (∀ (f : List TmuxCall → TmuxCall → String)
        (sessionName windowName rootPath : String) (firstPane : PaneConfig)
        (restPanes : List PaneConfig) (t : List TmuxCall),
      materializePanes sessionName windowName rootPath firstPane restPanes
        (okOracle f) t =
        (.ok (),
          t ++ firstPane.commands.map
              (fun command =>
                TmuxCall.sendKeysToPane sessionName windowName 0 command)
            ++ splitSectionCalls sessionName windowName rootPath 1 restPanes))
    ∧ (∀ (sessionName windowName rootPath : String) (k : Nat)
        (paneConfig : PaneConfig) (rest : List PaneConfig),
        splitSectionCalls sessionName windowName rootPath k (paneConfig :: rest) =
          TmuxCall.splitWindowHorizontal sessionName windowName "" (some rootPath) ::
            (paneConfig.commands.map
              (fun command =>
                TmuxCall.sendKeysToPane sessionName windowName k command)
            ++ splitSectionCalls sessionName windowName rootPath (k + 1) rest))
    ∧ (∀ (sessionName windowName : String) (paneIndex : Nat) (keys : String),
        (sendKeysToPaneArgs sessionName windowName paneIndex keys)[2]? =
          some (sessionName ++ ":" ++ windowName ++ "." ++ toString paneIndex)) :=
  ⟨materializePanes_ok, fun _ _ _ _ _ _ => rfl, fun _ _ _ _ => rfl⟩

/-- Claim C4: on a fully successful server the document-first window entry is
handled by querying the server for the initial window's actual index and
renaming it in place — never by `new-window` — while every other entry is
created fresh with a `new-window` call; later window positions never touch
the first-window machinery, and this holds under arbitrary oracles as well. -/
theorem claim4_first_window_renamed_in_place :
    (∀ (f : List TmuxCall → TmuxCall → String)
        (sessionName windowName rootPath : String) (t : List TmuxCall),
      createWindowEntry sessionName windowName rootPath true (okOracle f) t =
        (.ok (),
          t ++ [TmuxCall.getFirstWindowIndex sessionName,
            TmuxCall.renameWindow sessionName
              (f t (TmuxCall.getFirstWindowIndex sessionName)) windowName]))
    ∧ (∀ (f : List TmuxCall → TmuxCall → String)
        (sessionName windowName rootPath : String) (t : List TmuxCall),
        createWindowEntry sessionName windowName rootPath false (okOracle f) t =
          (.ok (),
            t ++ [TmuxCall.newWindow sessionName windowName none (some rootPath)]))
    ∧ (∀ (sessionName windowName rootPath : String) (o : Oracle)
        (t : List TmuxCall) (c : TmuxCall),
        c ∈ (createWindowEntry sessionName windowName rootPath true o t).2 →
        c ∈ t ∨ isNewWindowCall c = false)
    ∧ (∀ (sessionName rootPath : String) (index : Nat)
        (windowConfig : WindowConfig), index ≠ 0 →
        ∀ (o : Oracle) (t : List TmuxCall) (c : TmuxCall),
          c ∈ (materializeWindow sessionName rootPath index windowConfig o t).2 →
          c ∈ t ∨ isFirstWindowCall c = false)
    ∧ (∀ (f : List TmuxCall → TmuxCall → String)
        (sessionName rootPath : String) (index windowIndex : Nat)
        (windowName command : String) (t : List TmuxCall),
        materializeComplexEntry sessionName rootPath index windowIndex windowName
          command (okOracle f) t =
          (.ok (),
            (t ++
              (if index == 0 && windowIndex == 0 then
                [TmuxCall.getFirstWindowIndex sessionName,
                 TmuxCall.renameWindow sessionName
                   (f t (TmuxCall.getFirstWindowIndex sessionName)) windowName]
              else
                [TmuxCall.newWindow sessionName windowName none (some rootPath)]))
              ++ (if trimIsEmpty command then []
                  else [TmuxCall.sendKeys sessionName windowName command])))
    ∧ (∀ (sessionName rootPath : String) (windowIndex : Nat)
        (windowName : String) (layoutConfig : WindowLayout), windowIndex ≠ 0 →
        ∀ (o : Oracle) (t : List TmuxCall) (c : TmuxCall),
          c ∈ (materializeLayoutEntry sessionName rootPath 0 windowIndex
            windowName layoutConfig o t).2 →
          c ∈ t ∨ isFirstWindowCall c = false) := by
  refine ⟨createWindowEntry_ok_first, createWindowEntry_ok_fresh, ?_, ?_,
    materializeComplexEntry_ok, ?_⟩
  · intro sessionName windowName rootPath o t c hc
    obtain ⟨d, hd, hp⟩ :=
      @emitsWithin_createWindowEntry (fun c => !isNewWindowCall c) sessionName
        windowName rootPath true (fun _ => rfl) (fun _ v => rfl)
        (fun hfalse => nomatch hfalse) o t
    rw [hd] at hc
    rcases List.mem_append.mp hc with hin | hin
    · exact Or.inl hin
    · exact Or.inr (by simpa using hp c hin)
  · intro sessionName rootPath index windowConfig hidx o t c hc
    obtain ⟨d, hd, hp⟩ :=
      @emitsWithin_materializeWindow (fun c => !isFirstWindowCall c) sessionName
        rootPath index windowConfig (fun h => absurd h hidx)
        (fun h => absurd h hidx) (fun _ => rfl) (fun _ _ => rfl)
        (fun _ _ _ => rfl) (fun _ => rfl) (fun _ _ => rfl) o t
    rw [hd] at hc
    rcases List.mem_append.mp hc with hin | hin
    · exact Or.inl hin
    · exact Or.inr (by simpa using hp c hin)
  · intro sessionName rootPath windowIndex windowName layoutConfig hwi o t c hc
    obtain ⟨d, hd, hp⟩ :=
      @emitsWithin_materializeLayoutEntry (fun c => !isFirstWindowCall c)
        sessionName rootPath 0 windowIndex windowName layoutConfig
        (fun _ h => absurd h hwi) (fun _ h v => absurd h hwi) rfl rfl
        (fun _ _ _ => rfl) (fun _ _ => rfl) o t
    rw [hd] at hc
    rcases List.mem_append.mp hc with hin | hin
    · exact Or.inl hin
    · exact Or.inr (by simpa using hp c hin)

/-- Claim C4, witness: a Simple window at position 1 of a concrete run is
created fresh and its trace touches no first-window machinery. -/
theorem claim4_first_window_renamed_in_place_witness :
    TmuxCall.newWindow "proj" "window-1" none (some "/tmp/x") ∈
        ([] : List TmuxCall)
      ∨ isFirstWindowCall
          (TmuxCall.newWindow "proj" "window-1" none (some "/tmp/x")) = false :=
  claim4_first_window_renamed_in_place.2.2.2.1 "proj" "/tmp/x" 1
    (WindowConfig.Simple "ls") (by decide) (okOracle fun _ _ => "0") []
    (TmuxCall.newWindow "proj" "window-1" none (some "/tmp/x")) (by decide)

/-- Claim C8, counterexample: in a concrete fresh run the session-creation
call carries the target session name `proj` as the server-side name — the
`-s` argument — and not the resolved root `/tmp/x`, so "server-side name =
root" fails. -/
theorem claim8_counterexample :
    ((startSessionWithOptions sampleEnv "proj" false false) sampleOracle []).2[1]? =
        some (TmuxCall.newSession "proj" "/tmp/x")
    ∧ (newSessionArgs "proj" "/tmp/x")[3]? = some "proj"
    ∧ ("proj" : String) ≠ "/tmp/x" :=
  ⟨by decide, rfl, by decide⟩

/-- Claim C8, amended: in fresh-session materialization the session-creation
command is issued immediately after the existence probe, detached (`-d`),
with working directory (`-c`) equal to the resolved (expanded) root and with
server-side session name (`-s`) equal to the orchestration's target session
name. -/
theorem claim8_new_session_detached :
    ∀ (env : OrchestratorEnv) (sessionName : String) (attach append : Bool)
      (o : Oracle) (msg : String) (cfg : Config) (rootPath : String),
      o [] (.hasSession sessionName) = .error (.TmuxError msg) →
      env.loadConfig = .ok cfg →
      expand_path env.shell (cfg.root.getD "~") = .ok rootPath →
      (∃ rest,
        ((startSessionWithOptions env sessionName attach append) o []).2 =
          [TmuxCall.hasSession sessionName,
           TmuxCall.newSession sessionName rootPath] ++ rest)
      ∧ newSessionArgs sessionName rootPath =
          ["new-session", "-d", "-s", sessionName, "-c", rootPath] := by
  intro env sessionName attach append o msg cfg rootPath hh hlc hep
  refine ⟨?_, rfl⟩
  rw [startSessionWithOptions,
    sessionExistsM_bind_absent o sessionName [] msg _ hh]
  simp only [Bool.false_eq_true, if_false, hlc, hep, List.nil_append]
  refine exists_rest_of_bind_call _ _ o _ ?_
  intro a
  refine @emitsAppend_of_emitsWithin (fun _ => true) _ _ ?_
  refine emitsWithin_bind (emitsWithin_call rfl) ?_
  intro _
  refine emitsWithin_bind (emitsWithin_call rfl) ?_
  intro _
  refine emitsWithin_bind (emitsWithin_forEachIdx ?_ 0) ?_
  · intro i wc _
    exact emitsWithin_materializeWindow (fun _ => rfl) (fun _ _ _ => rfl)
      (fun _ => rfl) (fun _ _ => rfl) (fun _ _ _ => rfl) (fun _ => rfl)
      (fun _ _ => rfl)
  · intro _
    cases attach with
    | true =>
      rw [if_pos rfl]
      refine emitsWithin_bind (emitsWithin_tryCall rfl) ?_
      intro a
      cases a with
      | ok v => exact emitsWithin_pure _
      | error e => exact emitsWithin_throwE _
    | false =>
      rw [if_neg (by decide)]
      exact emitsWithin_pure _

/-- Claim C8, witness: the concrete fresh run issues
`new-session -d -s proj -c /tmp/x` right after the probe. -/
theorem claim8_new_session_detached_witness :
    (∃ rest,
      ((startSessionWithOptions sampleEnv "proj" false false) sampleOracle []).2 =
        [TmuxCall.hasSession "proj", TmuxCall.newSession "proj" "/tmp/x"] ++ rest)
    ∧ newSessionArgs "proj" "/tmp/x" =
        ["new-session", "-d", "-s", "proj", "-c", "/tmp/x"] :=
  claim8_new_session_detached sampleEnv "proj" false false sampleOracle
    "no server running" sampleConfig "/tmp/x" rfl rfl rfl

/-- Claim C10: a Simple window at zero-based position `index` is given the
synthetic name `window-index`: on a fully successful server that name is the
rename target (at position 0) or the `new-window` name (elsewhere) and the
window-level `send-keys` target, whose argument vector addresses
`session:window-name`. -/
theorem claim10_simple_window_synthetic_name :
    (∀ (f : List TmuxCall → TmuxCall → String)
        (sessionName rootPath : String) (index : Nat) (command : String)
        (t : List TmuxCall),
      materializeSimple sessionName rootPath index command (okOracle f) t =
        (.ok (),
          (t ++
            (if index == 0 then
              [TmuxCall.getFirstWindowIndex sessionName,
               TmuxCall.renameWindow sessionName
                 (f t (TmuxCall.getFirstWindowIndex sessionName))
                 ("window-" ++ toString index)]
            else
              [TmuxCall.newWindow sessionName ("window-" ++ toString index) none
                (some rootPath)]))
            ++ (if trimIsEmpty command then []
                else [TmuxCall.sendKeys sessionName ("window-" ++ toString index)
                  command])))
    ∧ (∀ sessionName windowName keys : String,
        (sendKeysArgs sessionName windowName keys)[2]? =
          some (sessionName ++ ":" ++ windowName)) :=
  ⟨materializeSimple_ok, fun _ _ _ => rfl⟩

end Tmuxrs
